import Mathlib

/-!
Verification of the `edge-nal-embassy` buffer-pool allocator and socket
lifecycle layer.

The development shallowly embeds the Rust sources:
- `Pool<T, N>` (src/lib.rs) becomes `Pool α`: a list of `used` flags plus a
  list of slot contents.  Slot storage addresses are modelled arithmetically:
  the slot at index `n` lives at address `base + n * sz`, where `sz` is the
  byte size of the element type and `base` the address of the data array.
- `Pool::alloc` scans the flags first-fit, flips the first free flag and
  returns the slot address; `Pool::free` recovers the index from the address
  by the same `offset_from` division the source performs, and the two
  `assert!` range checks are modelled by returning `none` (process abort) when
  they fail.
- The socket teardown paths (`Drop` impls), the TCP close/abort protocol and
  the factory entry points (`Udp::bind`, `Tcp::connect`, DNS queries) are
  embedded as pure functions over the pool state, with engine outcomes
  (flush results, read results, bind/connect results, resolver answers)
  passed in as explicit inputs.
-/

/-- Embedding of `Pool<T, N>` from src/lib.rs: `used` is the array of
`Cell<bool>` flags, `data` the array of (possibly uninitialized) slot
contents.  The capacity `N` is `used.length`. -/
structure Pool (α : Type) where
  used : List Bool
  data : List α
deriving DecidableEq

/-- Embedding of the scan loop in `Pool::alloc` (src/lib.rs lines 96-106):
the index of the first flag that is `false`, scanning from index 0. -/
def allocIdx : List Bool → Option Nat
  | [] => none
  | false :: _ => some 0
  | true :: rest => (allocIdx rest).map (· + 1)

/-- Embedding of `Pool::alloc` (src/lib.rs lines 96-106).  `sz` is
`size_of::<T>()` and `base` the address of the `data` array; the returned
handle is the address of the first free slot, whose flag is set to `true`.
Returns `none` when every slot is in use. -/
def Pool.alloc (p : Pool α) (sz base : Nat) : Option (Nat × Pool α) :=
  (allocIdx p.used).map fun n => (base + n * sz, ⟨p.used.set n true, p.data⟩)

/-- Embedding of `Pool::free` (src/lib.rs lines 114-120).  The slot index is
recovered as `offset_from`: the address difference divided by the element
size.  The two `assert!` statements (`n >= 0` and `(n as usize) < N`) are
modelled by the two guards; a failing assertion aborts the process, modelled
as `none`.  On success exactly the computed slot's flag is cleared. -/
def Pool.free (p : Pool α) (sz base ptr : Nat) : Option (Pool α) :=
  let n : Int := ((ptr : Int) - (base : Int)) / (sz : Int)
  if 0 ≤ n then
    if n.toNat < p.used.length then
      some ⟨p.used.set n.toNat false, p.data⟩
    else none
  else none

/-- Embedding of `Pool::new` (src/lib.rs lines 82-87): all flags `false`, all
slots holding an arbitrary (uninitialized) value `d`. -/
def freshPool (α : Type) (N : Nat) (d : α) : Pool α :=
  ⟨List.replicate N false, List.replicate N d⟩

/-- Run `k` consecutive `Pool::alloc` calls, collecting the returned handles
in order.  A failed allocation leaves the pool unchanged, exactly as the
source's `alloc` does. -/
def allocRun (sz base : Nat) : Pool α → Nat → List (Option Nat) × Pool α
  | p, 0 => ([], p)
  | p, k + 1 =>
    match p.alloc sz base with
    | none =>
      let r := allocRun sz base p k
      (none :: r.1, r.2)
    | some (a, p') =>
      let r := allocRun sz base p' k
      (some a :: r.1, r.2)

/-- Embedding of the `proto-ipv4` / `proto-ipv6` Cargo feature flags that
gate the `cfg` arms of `to_emb_addr`. -/
structure Features where
  ipv4 : Bool
  ipv6 : Bool
deriving DecidableEq

/-- Embedding of `core::net::IpAddr`; the address payload is abstracted to a
`Nat`, with payload `0` standing for the unspecified (wildcard) address. -/
inductive IpAddr
  | v4 (a : Nat)
  | v6 (a : Nat)
deriving DecidableEq

/-- Embedding of `IpAddr::is_unspecified`. -/
def IpAddr.is_unspecified : IpAddr → Bool
  | .v4 a => a = 0
  | .v6 a => a = 0

/-- Embedding of `embassy_net::IpAddress`. -/
inductive IpAddress
  | v4 (a : Nat)
  | v6 (a : Nat)
deriving DecidableEq

/-- Embedding of `core::net::SocketAddr`. -/
structure SocketAddr where
  ip : IpAddr
  port : Nat
deriving DecidableEq

/-- Embedding of `embassy_net::IpEndpoint`. -/
structure IpEndpoint where
  addr : IpAddress
  port : Nat
deriving DecidableEq

/-- Embedding of `embassy_net::IpListenEndpoint`; `addr = none` means listen
on any address. -/
structure IpListenEndpoint where
  addr : Option IpAddress
  port : Nat
deriving DecidableEq

/-- Embedding of `to_emb_addr` (src/lib.rs lines 151-160): each match arm
exists only when the corresponding protocol feature is compiled in, otherwise
the wildcard arm returns `None`. -/
def to_emb_addr (f : Features) : IpAddr → Option IpAddress
  | .v4 a => if f.ipv4 then some (.v4 a) else none
  | .v6 a => if f.ipv6 then some (.v6 a) else none

/-- Embedding of `to_emb_socket` (src/lib.rs lines 129-134). -/
def to_emb_socket (f : Features) (s : SocketAddr) : Option IpEndpoint :=
  (to_emb_addr f s.ip).map fun a => ⟨a, s.port⟩

/-- Embedding of `to_emb_bind_socket` (src/lib.rs lines 137-148): the
unspecified address maps to a listen endpoint with no address; otherwise the
address is converted and a conversion failure propagates as `None`. -/
def to_emb_bind_socket (f : Features) (s : SocketAddr) : Option IpListenEndpoint :=
  if s.ip.is_unspecified then some ⟨none, s.port⟩
  else (to_emb_addr f s.ip).map fun a => ⟨some a, s.port⟩

/-- Embedding of `TcpError` (src/tcp.rs lines 300-311); engine error payloads
are abstracted to `Nat`. -/
inductive TcpError
  | General (e : Nat)
  | Connect (e : Nat)
  | Accept (e : Nat)
  | NoBuffers
  | UnsupportedProto
deriving DecidableEq

/-- Embedding of `UdpError` (src/udp.rs lines 295-310); engine error payloads
are abstracted to `Nat`. -/
inductive UdpError
  | Recv (e : Nat)
  | Send (e : Nat)
  | Bind (e : Nat)
  | MulticastGroupTableFull
  | MulticastUnaddressable
  | NoBuffers
  | UnsupportedProto
deriving DecidableEq

/-- Socket kinds implemented by the crate. -/
inductive SocketKind
  | tcp
  | udp
  | raw
deriving DecidableEq

/-- Observable teardown and shutdown events of a socket wrapper. -/
inductive Ev
  | engineAbort
  | engineFlushAwait
  | engineClose
  | poolFree (tok : Nat)
deriving DecidableEq

/-- Embedding of the `Drop` impls (src/tcp.rs lines 192-199, src/udp.rs lines
115-122, src/raw.rs lines 139-145) as the ordered list of teardown events
each performs.  Rust runs a wrapper's drop glue exactly once when its
lifetime ends, on every exit path (early error return, explicit close, or
plain end of scope); the embedding models that by this trace being emitted
exactly once at end of scope.  Note the raw socket's `Drop` performs no
engine close: `embassy_net::raw::RawSocket` has no close operation. -/
def socketDropTrace : SocketKind → Nat → List Ev
  | .tcp, tok => [.engineClose, .poolFree tok]
  | .udp, tok => [.engineClose, .poolFree tok]
  | .raw, tok => [.poolFree tok]

/-- Embedding of `TcpSocket::abort` (src/tcp.rs lines 184-189) as its event
trace: force the connection down, then await the transmit flush. -/
def abortTrace : List Ev := [.engineAbort, .engineFlushAwait]

/-- Trace of `TcpSocket::abort` followed by the wrapper being dropped. -/
def abortThenDrop (tok : Nat) : List Ev := abortTrace ++ socketDropTrace .tcp tok

/-- Embedding of `edge_nal::Close`, the direction argument of
`TcpSocket::close`. -/
inductive Close
  | read
  | write
  | both
deriving DecidableEq

/-- Environment of a `TcpSocket::close` call: the successive outcomes of
`rx.read` (a byte count or a `Nat`-coded engine error) and the outcome of
`tx.flush`. -/
structure CloseEnv where
  reads : List (Except Nat Nat)
  flushRes : Except Nat Unit

/-- Embedding of the `From<embassy_net::tcp::Error> for TcpError` conversion
that the `?` operator applies to flush and read errors. -/
def liftFlush : Except Nat Unit → Except TcpError Unit
  | .ok u => .ok u
  | .error e => .error (.General e)

/-- Embedding of `discard_all_data` (src/tcp.rs lines 152-158): read and
discard until a read returns 0 (peer end-of-stream) or fails.  The input list
models the successive engine read outcomes; an exhausted list is treated as
end-of-stream. -/
def discard_all_data : List (Except Nat Nat) → Except TcpError Unit
  | [] => .ok ()
  | .error e :: _ => .error (.General e)
  | .ok n :: rest => if 0 < n then discard_all_data rest else .ok ()

/-- Embedding of `TcpSocket::close` (src/tcp.rs lines 151-182).  The returned
`Bool` records whether the half-close signal `self.socket.close()` was sent
(directions `Both` and `Write`).  For `Both` the source joins the transmit
flush and the receive discard; the `join` completes only when both futures
have finished, so it is embedded as the pair of both completed results,
matched exactly as the source matches it. -/
def TcpSocket.close (what : Close) (env : CloseEnv) : Bool × Except TcpError Unit :=
  match what with
  | .read => (false, discard_all_data env.reads)
  | .write => (true, liftFlush env.flushRes)
  | .both =>
    (true,
      match liftFlush env.flushRes, discard_all_data env.reads with
      | .error e, _ => .error e
      | _, .error e => .error e
      | _, _ => .ok ())

/-- Embedding of `Udp::bind` (src/udp.rs lines 48-56) together with the
`?`-early-return drop semantics of `UdpSocket`: construction allocates a
buffer token from the pool (`UdpSocket::new`, src/udp.rs lines 73-112); if
address conversion or the engine bind fails, the error propagates and the
socket wrapper is dropped, which frees the token (src/udp.rs lines 115-122).
`bindRes` gives the engine's answer to `bind(endpoint)`.  The outer `Option`
is `none` only when a pool assertion fails (process abort). -/
def Udp.bind (f : Features) (p : Pool α) (sz base : Nat) (localAddr : SocketAddr)
    (bindRes : IpListenEndpoint → Except Nat Unit) :
    Option (Except UdpError Unit × Pool α) :=
  match p.alloc sz base with
  | none => some (.error .NoBuffers, p)
  | some (tok, p1) =>
    match to_emb_bind_socket f localAddr with
    | none => (Pool.free p1 sz base tok).map fun p2 => (.error .UnsupportedProto, p2)
    | some ep =>
      match bindRes ep with
      | .error e => (Pool.free p1 sz base tok).map fun p2 => (.error (.Bind e), p2)
      | .ok _ => some (.ok (), p1)

/-- Embedding of `Tcp::connect` (src/tcp.rs lines 52-61) with the same drop
semantics: allocation (`TcpSocket::new`, src/tcp.rs lines 124-149), address
conversion via `to_emb_socket`, then the engine connect; on any error the
`TcpSocket` wrapper is dropped, closing the engine socket and freeing the
token (src/tcp.rs lines 192-199). -/
def Tcp.connect (f : Features) (p : Pool α) (sz base : Nat) (remote : SocketAddr)
    (connectRes : IpEndpoint → Except Nat Unit) :
    Option (Except TcpError Unit × Pool α) :=
  match p.alloc sz base with
  | none => some (.error .NoBuffers, p)
  | some (tok, p1) =>
    match to_emb_socket f remote with
    | none => (Pool.free p1 sz base tok).map fun p2 => (.error .UnsupportedProto, p2)
    | some ep =>
      match connectRes ep with
      | .error e => (Pool.free p1 sz base tok).map fun p2 => (.error (.Connect e), p2)
      | .ok _ => some (.ok (), p1)

/-- Embedding of `edge_nal::AddrType`. -/
inductive AddrType
  | ipv4
  | ipv6
  | either
deriving DecidableEq

/-- Embedding of `embassy_net::dns::DnsQueryType` (the variants used). -/
inductive DnsQueryType
  | a
  | aaaa
deriving DecidableEq

/-- Embedding of `embassy_net::dns::Error`; `Failed` is the variant the code
returns for an empty result list, other variants are `Nat`-coded. -/
inductive DnsEngineError
  | Failed
  | other (e : Nat)
deriving DecidableEq

/-- Embedding of `DnsError` (src/dns.rs line 61): a newtype over the engine
error. -/
structure DnsError where
  e : DnsEngineError
deriving DecidableEq

/-- Embedding of the `addr_type` to query-type match in
`Dns::get_host_by_name` (src/dns.rs lines 37-40): IPv6 asks for AAAA records,
everything else for A records. -/
def queryTypeOf : AddrType → DnsQueryType
  | .ipv6 => .aaaa
  | _ => .a

/-- Embedding of the `Into<IpAddr>` conversion applied to the first resolved
address. -/
def IpAddress.toIpAddr : IpAddress → IpAddr
  | .v4 a => .v4 a
  | .v6 a => .v6 a

/-- Embedding of `Dns::get_host_by_name` (src/dns.rs lines 32-47); `query`
models `stack.dns_query` for the fixed hostname. -/
def Dns.get_host_by_name
    (query : DnsQueryType → Except DnsEngineError (List IpAddress))
    (addrType : AddrType) : Except DnsError IpAddr :=
  match query (queryTypeOf addrType) with
  | .error e => .error ⟨e⟩
  | .ok addrs =>
    match addrs with
    | first :: _ => .ok first.toIpAddr
    | [] => .error ⟨.Failed⟩

/-- Embedding of `Dns::get_host_by_address` (src/dns.rs lines 49-55): the
body is `todo!()`, which aborts unconditionally, so the embedding never
produces a result value. -/
def Dns.get_host_by_address (_addr : IpAddr) (_result : List Nat) :
    Option (Except DnsError Nat) :=
  none

lemma allocIdx_replicate_true (k : Nat) : allocIdx (List.replicate k true) = none := by
  induction k with
  | zero => rfl
  | succ k ih => simp [List.replicate_succ, allocIdx, ih]

lemma allocIdx_replicate_append (k : Nat) (rest : List Bool) :
    allocIdx (List.replicate k true ++ false :: rest) = some k := by
  induction k with
  | zero => rfl
  | succ k ih => simp [List.replicate_succ, allocIdx, ih]

lemma set_replicate_append (k : Nat) (rest : List Bool) :
    (List.replicate k true ++ false :: rest).set k true =
      List.replicate (k + 1) true ++ rest := by
  induction k with
  | zero => rfl
  | succ k ih =>
    simp only [List.replicate_succ, List.cons_append, List.set_cons_succ, ih]

lemma allocRun_spec (α : Type) (sz base : Nat) (d : List α) (m : Nat) :
    ∀ k, allocRun sz base (⟨List.replicate k true ++ List.replicate m false, d⟩ : Pool α) m =
      ((List.range m).map (fun i => some (base + (k + i) * sz)),
        ⟨List.replicate (k + m) true, d⟩) := by
  induction m with
  | zero => intro k; simp [allocRun]
  | succ m ih =>
    intro k
    have hused : List.replicate (m + 1) false = false :: List.replicate m false :=
      List.replicate_succ false m
    have h1 : allocIdx (List.replicate k true ++ List.replicate (m + 1) false) = some k := by
      rw [hused]; exact allocIdx_replicate_append k _
    have halloc :
        (⟨List.replicate k true ++ List.replicate (m + 1) false, d⟩ : Pool α).alloc sz base =
          some (base + k * sz,
            ⟨List.replicate (k + 1) true ++ List.replicate m false, d⟩) := by
      simp only [Pool.alloc, h1, Option.map_some']
      rw [hused, set_replicate_append]
    rw [allocRun, halloc]
    simp only [ih (k + 1)]
    congr 1
    · rw [List.range_succ_eq_map, List.map_cons, List.map_map]
      congr 1
      apply List.map_congr_left
      intro i _
      have hik : k + 1 + i = k + (i + 1) := by omega
      simp [Function.comp, Nat.succ_eq_add_one, hik]
    · have hkm : k + 1 + m = k + (m + 1) := by omega
      rw [hkm]

/-- Claim C1: starting from a pool with all `N` slots free, the first `N`
calls to `alloc` each return `Some`, the returned storage handles (slot
addresses) are pairwise distinct, and the `(N+1)`-th call, with no
intervening `free`, returns `None`. -/
theorem pool_n_allocs_distinct_then_exhausted
    (α : Type) (N sz base : Nat) (d : α) (hsz : 0 < sz) :
    (∀ o ∈ (allocRun sz base (freshPool α N d) N).1, o.isSome) ∧
    (allocRun sz base (freshPool α N d) N).1.Pairwise (· ≠ ·) ∧
    (allocRun sz base (freshPool α N d) N).2.alloc sz base = none := by
  have h := allocRun_spec α sz base (List.replicate N d) N 0
  simp only [List.nil_append, List.replicate_zero, Nat.zero_add] at h
  rw [freshPool, h]
  refine ⟨?_, ?_, ?_⟩
  · intro o ho
    simp only [List.mem_map] at ho
    obtain ⟨i, _, rfl⟩ := ho
    rfl
  · rw [List.pairwise_map]
    have hr : (List.range N).Pairwise (· < ·) := List.pairwise_lt_range N
    refine hr.imp ?_
    intro i j hij heq
    simp only [Option.some.injEq] at heq
    have : i * sz = j * sz := by omega
    have : i = j := Nat.eq_of_mul_eq_mul_right hsz this
    omega
  · simp [Pool.alloc, allocIdx_replicate_true]

/-- Witness for C1 at `N = 3`, `sz = 4`, `base = 100`. -/
theorem pool_n_allocs_distinct_then_exhausted_witness :
    0 < 4 ∧
    ((∀ o ∈ (allocRun 4 100 (freshPool Nat 3 0) 3).1, o.isSome) ∧
      (allocRun 4 100 (freshPool Nat 3 0) 3).1.Pairwise (· ≠ ·) ∧
      (allocRun 4 100 (freshPool Nat 3 0) 3).2.alloc 4 100 = none) :=
  ⟨by decide, pool_n_allocs_distinct_then_exhausted Nat 3 4 100 0 (by decide)⟩

lemma getElem?_some_lt {l : List Bool} {n : Nat} {b : Bool} (h : l[n]? = some b) :
    n < l.length := by
  by_contra hn
  rw [List.getElem?_eq_none (by omega)] at h
  cases h

lemma slot_addr_inj {sz : Nat} (hsz : 0 < sz) {base n m : Nat}
    (h : base + n * sz = base + m * sz) : n = m := by
  have h2 : n * sz = m * sz := by omega
  exact Nat.eq_of_mul_eq_mul_right hsz h2

lemma allocIdx_eq_some_iff (l : List Bool) :
    ∀ n, allocIdx l = some n ↔
      (l[n]? = some false ∧ ∀ m, m < n → l[m]? = some true) := by
  induction l with
  | nil => intro n; simp [allocIdx]
  | cons b rest ih =>
    intro n
    cases b with
    | false =>
      cases n with
      | zero => simp [allocIdx]
      | succ j =>
        simp only [allocIdx]
        constructor
        · intro h; simp at h
        · rintro ⟨-, hall⟩
          have h0 := hall 0 (Nat.succ_pos j)
          simp at h0
    | true =>
      cases n with
      | zero =>
        simp only [allocIdx, Option.map_eq_some', List.getElem?_cons_zero]
        constructor
        · rintro ⟨a, -, h⟩; omega
        · rintro ⟨h, -⟩; simp at h
      | succ j =>
        simp only [allocIdx, Option.map_eq_some', List.getElem?_cons_succ]
        constructor
        · rintro ⟨a, ha, hn⟩
          have haj : a = j := by omega
          subst haj
          obtain ⟨h1, h2⟩ := (ih a).mp ha
          refine ⟨h1, ?_⟩
          intro m hm
          cases m with
          | zero => simp
          | succ i => simpa using h2 i (by omega)
        · rintro ⟨h1, h2⟩
          refine ⟨j, (ih j).mpr ⟨h1, ?_⟩, rfl⟩
          intro m hm
          simpa using h2 (m + 1) (by omega)

lemma alloc_eq_some_iff (α : Type) (p : Pool α) (sz base : Nat) {a : Nat} {p' : Pool α} :
    p.alloc sz base = some (a, p') ↔
      ∃ n, allocIdx p.used = some n ∧ a = base + n * sz ∧
        p' = ⟨p.used.set n true, p.data⟩ := by
  simp only [Pool.alloc, Option.map_eq_some']
  constructor
  · rintro ⟨n, hn, heq⟩
    rw [Prod.mk.injEq] at heq
    exact ⟨n, hn, heq.1.symm, heq.2.symm⟩
  · rintro ⟨n, hn, ha, hp⟩
    exact ⟨n, hn, by rw [ha, hp]⟩

lemma free_at_index (α : Type) (p : Pool α) (sz base idx : Nat) (hsz : 0 < sz)
    (hidx : idx < p.used.length) :
    Pool.free p sz base (base + idx * sz) = some ⟨p.used.set idx false, p.data⟩ := by
  have hoff : ((base + idx * sz : Nat) : Int) - (base : Int) = ((idx * sz : Nat) : Int) := by
    push_cast; ring
  have hdiv : ((idx * sz : Nat) : Int) / ((sz : Nat) : Int) = ((idx : Nat) : Int) := by
    rw [← Int.ofNat_ediv, Nat.mul_div_cancel _ hsz]
  simp only [Pool.free, hoff, hdiv]
  simp [hidx]

lemma free_inv (α : Type) (p : Pool α) (sz base ptr : Nat) (p' : Pool α)
    (hfree : Pool.free p sz base ptr = some p') :
    ∃ n, n < p.used.length ∧ p' = ⟨p.used.set n false, p.data⟩ := by
  simp only [Pool.free] at hfree
  by_cases h0 : (0 : Int) ≤ ((ptr : Int) - (base : Int)) / (sz : Int)
  · rw [if_pos h0] at hfree
    by_cases h1 : (((ptr : Int) - (base : Int)) / (sz : Int)).toNat < p.used.length
    · rw [if_pos h1] at hfree
      exact ⟨_, h1, (Option.some.inj hfree).symm⟩
    · rw [if_neg h1] at hfree; cases hfree
  · rw [if_neg h0] at hfree; cases hfree

/-- Claim C6: for a handle previously returned by `Pool::alloc` and not yet
freed (so its slot index is in range and its flag is set), `Pool::free`
recovers the slot index from the address offset, both `assert!` range checks
succeed (the abort branch is unreachable), and exactly that slot's used flag
is cleared. -/
theorem free_allocated_handle_clears_slot
    (α : Type) (p : Pool α) (sz base idx : Nat) (hsz : 0 < sz)
    (hidx : idx < p.used.length) (_hlive : p.used[idx]? = some true) :
    Pool.free p sz base (base + idx * sz) = some ⟨p.used.set idx false, p.data⟩ :=
  free_at_index α p sz base idx hsz hidx

/-- Witness for C6 on a concrete two-slot pool. -/
theorem free_allocated_handle_clears_slot_witness :
    (0 < 2 ∧ 1 < 2 ∧ ([true, true] : List Bool)[1]? = some true) ∧
    Pool.free (⟨[true, true], [4, 5]⟩ : Pool Nat) 2 10 (10 + 1 * 2) =
      some ⟨[true, false], [4, 5]⟩ :=
  ⟨⟨by decide, by decide, by decide⟩,
    free_allocated_handle_clears_slot Nat ⟨[true, true], [4, 5]⟩ 2 10 1
      (by decide) (by decide) (by decide)⟩

/-- Claim C9: `Pool::alloc` and `Pool::free` each flip the used flag of
exactly one slot, leave every other slot's flag unchanged, and leave the
storage contents of every slot (the `data` array) unchanged — in particular
freeing does not zero or overwrite the freed slot's bytes. -/
theorem alloc_free_touch_one_flag_only (α : Type) (p : Pool α) (sz base : Nat) :
    (∀ a p', p.alloc sz base = some (a, p') →
      ∃ n, a = base + n * sz ∧ p.used[n]? = some false ∧ p'.used[n]? = some true ∧
        (∀ j, j ≠ n → p'.used[j]? = p.used[j]?) ∧ p'.data = p.data) ∧
    (∀ ptr p', Pool.free p sz base ptr = some p' →
      ∃ n, n < p.used.length ∧ p'.used[n]? = some false ∧
        (∀ j, j ≠ n → p'.used[j]? = p.used[j]?) ∧ p'.data = p.data) := by
  constructor
  · intro a p' halloc
    obtain ⟨n, hn, ha, hp⟩ := (alloc_eq_some_iff α p sz base).mp halloc
    obtain ⟨hfree, -⟩ := (allocIdx_eq_some_iff p.used n).mp hn
    have hlt : n < p.used.length := getElem?_some_lt hfree
    subst hp
    refine ⟨n, ha, hfree, ?_, ?_, rfl⟩
    · exact List.getElem?_set_self hlt
    · intro j hj
      exact List.getElem?_set_ne (by omega)
  · intro ptr p' hfree
    obtain ⟨n, hlt, hp⟩ := free_inv α p sz base ptr p' hfree
    subst hp
    refine ⟨n, hlt, ?_, ?_, rfl⟩
    · exact List.getElem?_set_self hlt
    · intro j hj
      exact List.getElem?_set_ne (by omega)

/-- Witness for C9: the alloc frame condition at a concrete one-slot pool. -/
theorem alloc_free_touch_one_flag_only_witness :
    ∃ n, (10 : Nat) = 10 + n * 2 ∧ ([false] : List Bool)[n]? = some false ∧
      ([true] : List Bool)[n]? = some true ∧
      (∀ j, j ≠ n → ([true] : List Bool)[j]? = ([false] : List Bool)[j]?) ∧
      ([7] : List Nat) = [7] :=
  (alloc_free_touch_one_flag_only Nat ⟨[false], [7]⟩ 2 10).1 10 ⟨[true], [7]⟩ (by decide)

/-- Counterexample to claim C3 as stated: in the pool with flags
`[false, true]` (slot 0 free, slot 1 used), the lowest-index used slot is
slot 1; freeing its handle (`sz = 1`, `base = 0`, address 1) succeeds, but
the next allocation returns the handle of slot 0 (address 0), not the freed
slot 1. -/
theorem free_lowest_used_then_alloc_cx :
    (Pool.free (⟨[false, true], [0, 0]⟩ : Pool Nat) 1 0 1).bind
        (fun p1 => (p1.alloc 1 0).map Prod.fst) = some 0 ∧
    (0 : Nat) ≠ 1 := by decide

/-- Claim C3 (amended): allocation is first-fit (it returns exactly the
lowest-index free slot); a handle returned by `alloc` never aliases a
still-live handle; freeing any previously allocated handle makes exactly
that one slot allocatable — its flag becomes free while every other slot's
flag is unchanged — and for exactly one subsequent allocation: whatever pool
state an allocation returns that slot's handle from, it marks the slot used
again, and no allocation from a state where the slot is marked used can
return its handle until it is freed again.  Amended: after freeing a slot
below which every slot is used (for example any slot of a previously full
pool) the very next allocation returns that same slot; the original claim's
"after freeing the lowest-index used slot the next allocation returns that
same slot" fails when a lower-index slot is free (see the counterexample). -/
theorem alloc_first_fit_and_free_reuse
    (α : Type) (p : Pool α) (sz base : Nat) (hsz : 0 < sz) :
    (∀ n, allocIdx p.used = some n ↔
      (p.used[n]? = some false ∧ ∀ m, m < n → p.used[m]? = some true)) ∧
    (∀ a p', p.alloc sz base = some (a, p') →
      ∀ m, p.used[m]? = some true → a ≠ base + m * sz) ∧
    (∀ i : Nat, p.used[i]? = some true →
      ∀ p1, Pool.free p sz base (base + i * sz) = some p1 →
        (p1.used[i]? = some false ∧
          (∀ j : Nat, j ≠ i → p1.used[j]? = p.used[j]?)) ∧
        (∀ q p2 : Pool α, q.alloc sz base = some (base + i * sz, p2) →
          p2.used[i]? = some true) ∧
        (∀ (q p2 : Pool α) (a2 : Nat), q.used[i]? = some true →
          q.alloc sz base = some (a2, p2) → a2 ≠ base + i * sz) ∧
        ((∀ j : Nat, j < i → p.used[j]? = some true) →
          p1.alloc sz base = some (base + i * sz, ⟨p1.used.set i true, p1.data⟩))) := by
  refine ⟨allocIdx_eq_some_iff p.used, ?_, ?_⟩
  · intro a p' halloc m hm ha
    obtain ⟨n, hn, han, -⟩ := (alloc_eq_some_iff α p sz base).mp halloc
    obtain ⟨hnf, -⟩ := (allocIdx_eq_some_iff p.used n).mp hn
    have : n = m := slot_addr_inj hsz (han ▸ ha)
    subst this
    rw [hnf] at hm
    cases hm
  · intro i hi p1 hfree
    have hlt : i < p.used.length := getElem?_some_lt hi
    have hfree' := free_at_index α p sz base i hsz hlt
    rw [hfree'] at hfree
    obtain rfl : p1 = ⟨p.used.set i false, p.data⟩ := (Option.some.inj hfree).symm
    refine ⟨⟨?_, ?_⟩, ?_, ?_, ?_⟩
    · exact List.getElem?_set_self (by simpa using hlt)
    · intro j hj
      exact List.getElem?_set_ne (by omega)
    · intro q p2 halloc2
      obtain ⟨n, hn, han, hp2⟩ := (alloc_eq_some_iff α q sz base).mp halloc2
      obtain ⟨hnf, -⟩ := (allocIdx_eq_some_iff q.used n).mp hn
      have hni : n = i := slot_addr_inj hsz han.symm
      subst hni
      have hlt2 : n < q.used.length := getElem?_some_lt hnf
      rw [hp2]
      exact List.getElem?_set_self (by simpa using hlt2)
    · intro q p2 a2 hq halloc2 ha2
      obtain ⟨n, hn, han, -⟩ := (alloc_eq_some_iff α q sz base).mp halloc2
      obtain ⟨hnf, -⟩ := (allocIdx_eq_some_iff q.used n).mp hn
      have hni : n = i := slot_addr_inj hsz (han ▸ ha2)
      subst hni
      rw [hnf] at hq
      cases hq
    · intro hbelow
      have hidx1 : allocIdx (p.used.set i false) = some i := by
        refine (allocIdx_eq_some_iff _ i).mpr ⟨?_, ?_⟩
        · exact List.getElem?_set_self (by simpa using hlt)
        · intro m hm
          rw [List.getElem?_set_ne (by omega)]
          exact hbelow m hm
      rw [alloc_eq_some_iff]
      exact ⟨i, hidx1, rfl, rfl⟩

/-- Witness for C3 on a concrete two-slot pool with both slots used. -/
theorem alloc_first_fit_and_free_reuse_witness :
    0 < 2 ∧
    ((∀ n, allocIdx (⟨[true, true], [5, 6]⟩ : Pool Nat).used = some n ↔
      ((⟨[true, true], [5, 6]⟩ : Pool Nat).used[n]? = some false ∧
        ∀ m, m < n → (⟨[true, true], [5, 6]⟩ : Pool Nat).used[m]? = some true)) ∧
    (∀ a p', (⟨[true, true], [5, 6]⟩ : Pool Nat).alloc 2 10 = some (a, p') →
      ∀ m, (⟨[true, true], [5, 6]⟩ : Pool Nat).used[m]? = some true → a ≠ 10 + m * 2) ∧
    (∀ i : Nat, (⟨[true, true], [5, 6]⟩ : Pool Nat).used[i]? = some true →
      ∀ p1, Pool.free (⟨[true, true], [5, 6]⟩ : Pool Nat) 2 10 (10 + i * 2) = some p1 →
        (p1.used[i]? = some false ∧
          (∀ j : Nat, j ≠ i → p1.used[j]? = (⟨[true, true], [5, 6]⟩ : Pool Nat).used[j]?)) ∧
        (∀ q p2 : Pool Nat, q.alloc 2 10 = some (10 + i * 2, p2) →
          p2.used[i]? = some true) ∧
        (∀ (q p2 : Pool Nat) (a2 : Nat), q.used[i]? = some true →
          q.alloc 2 10 = some (a2, p2) → a2 ≠ 10 + i * 2) ∧
        ((∀ j : Nat, j < i → (⟨[true, true], [5, 6]⟩ : Pool Nat).used[j]? = some true) →
          p1.alloc 2 10 = some (10 + i * 2, ⟨p1.used.set i true, p1.data⟩)))) :=
  ⟨by decide, alloc_first_fit_and_free_reuse Nat ⟨[true, true], [5, 6]⟩ 2 10 (by decide)⟩

lemma set_true_then_false_getElem (l : List Bool) (n : Nat) (hn : l[n]? = some false) :
    ∀ i : Nat, ((l.set n true).set n false)[i]? = l[i]? := by
  intro i
  by_cases h : i = n
  · subst h
    rw [List.getElem?_set_self (by simpa using getElem?_some_lt hn), hn]
  · rw [List.getElem?_set_ne (by omega), List.getElem?_set_ne (by omega)]

/-- Counterexample to claim C2 as stated: the raw socket's teardown does not
request an engine close before freeing the token — its `Drop` impl
(src/raw.rs lines 139-145) only frees. -/
theorem raw_teardown_no_engine_close_cx :
    socketDropTrace .raw 0 ≠ [.engineClose, .poolFree 0] ∧
    Ev.engineClose ∉ socketDropTrace .raw 0 := by decide

/-- Claim C2 (amended): whenever a socket wrapper's lifetime ends — on every
exit path, Rust runs its drop glue exactly once — the teardown trace frees
the wrapper's release token exactly once, as the final step.  For TCP and UDP
sockets the trace first requests the engine socket close and then frees the
token; the raw socket's engine handle has no close operation, so its teardown
is the free alone.  The original claim's "for every socket kind ... first
requests the underlying engine socket close" fails for the raw socket (see
the counterexample). -/
theorem teardown_frees_once_close_first (k : SocketKind) (tok : Nat) :
    (socketDropTrace k tok).count (.poolFree tok) = 1 ∧
    (socketDropTrace k tok).getLast? = some (.poolFree tok) ∧
    ((k = .tcp ∨ k = .udp) → socketDropTrace k tok = [.engineClose, .poolFree tok]) ∧
    (k = .raw → socketDropTrace k tok = [.poolFree tok]) := by
  cases k <;> simp [socketDropTrace, List.count_cons, List.count_nil]

/-- Witness for C2 (amended) for the TCP socket with token 5. -/
theorem teardown_frees_once_close_first_witness :
    (socketDropTrace .tcp 5).count (.poolFree 5) = 1 ∧
    (socketDropTrace .tcp 5).getLast? = some (.poolFree 5) ∧
    ((SocketKind.tcp = .tcp ∨ SocketKind.tcp = .udp) →
      socketDropTrace .tcp 5 = [.engineClose, .poolFree 5]) ∧
    (SocketKind.tcp = .raw → socketDropTrace .tcp 5 = [.poolFree 5]) :=
  teardown_frees_once_close_first .tcp 5

/-- Claim C4: `TcpSocket::close` with direction `Both` joins the transmit
flush and the receive discard (the join yields only when both results are
available) and reports: the flush (write-direction) error if both directions
fail; the failing direction's error if exactly one fails; success otherwise. -/
theorem close_both_error_selection (env : CloseEnv) :
    (∀ e d, env.flushRes = .error e → discard_all_data env.reads = .error d →
      (TcpSocket.close .both env).2 = .error (.General e)) ∧
    (∀ e, env.flushRes = .error e → discard_all_data env.reads = .ok () →
      (TcpSocket.close .both env).2 = .error (.General e)) ∧
    (∀ d, env.flushRes = .ok () → discard_all_data env.reads = .error d →
      (TcpSocket.close .both env).2 = .error d) ∧
    (env.flushRes = .ok () → discard_all_data env.reads = .ok () →
      (TcpSocket.close .both env).2 = .ok ()) := by
  refine ⟨?_, ?_, ?_, ?_⟩
  · intro e d hf hd
    simp [TcpSocket.close, liftFlush, hf, hd]
  · intro e hf hd
    simp [TcpSocket.close, liftFlush, hf, hd]
  · intro d hf hd
    simp [TcpSocket.close, liftFlush, hf, hd]
  · intro hf hd
    simp [TcpSocket.close, liftFlush, hf, hd]

/-- Witness for C4: flush fails with engine error 3, discard succeeds. -/
theorem close_both_error_selection_witness :
    (TcpSocket.close .both ⟨[.ok 0], .error 3⟩).2 = .error (.General 3) :=
  (close_both_error_selection ⟨[.ok 0], .error 3⟩).2.1 3 rfl rfl

/-- Claim C5: `TcpSocket::abort` first forces the connection down (no
graceful handshake) and then awaits the transmit flush; the release token is
freed only by the later drop, so in the abort-then-drop trace every
`poolFree` event is strictly preceded by the flush-quiescence event. -/
theorem abort_flush_before_token_free (tok : Nat) :
    (abortThenDrop tok).head? = some .engineAbort ∧
    (∀ j : Nat, (abortThenDrop tok)[j]? = some (.poolFree tok) →
      ∃ i : Nat, i < j ∧ (abortThenDrop tok)[i]? = some .engineFlushAwait) := by
  refine ⟨rfl, ?_⟩
  intro j hj
  rcases j with _ | _ | _ | _ | n
  · simp [abortThenDrop, abortTrace, socketDropTrace] at hj
  · simp [abortThenDrop, abortTrace, socketDropTrace] at hj
  · simp [abortThenDrop, abortTrace, socketDropTrace] at hj
  · exact ⟨1, by omega, rfl⟩
  · simp [abortThenDrop, abortTrace, socketDropTrace] at hj

/-- Witness for C5: in the trace with token 0, the free at position 3 is
preceded by the flush-quiescence event. -/
theorem abort_flush_before_token_free_witness :
    ∃ i : Nat, i < 3 ∧ (abortThenDrop 0)[i]? = some Ev.engineFlushAwait :=
  (abort_flush_before_token_free 0).2 3 rfl

/-- Claim C7: binding a UDP socket or connecting a TCP socket to a specified
(non-wildcard) address whose family is not compiled in fails with
`UnsupportedProto`, and the buffer token allocated during socket construction
is released by the wrapper's drop, leaving every slot's occupancy (and all
storage) exactly as before the call. -/
theorem unsupported_family_error_releases_slot
    (α : Type) (f : Features) (p : Pool α) (sz base : Nat) (a : SocketAddr)
    (bindRes : IpListenEndpoint → Except Nat Unit)
    (connRes : IpEndpoint → Except Nat Unit)
    (hsz : 0 < sz) (hspec : a.ip.is_unspecified = false)
    (hfam : to_emb_addr f a.ip = none)
    (n : Nat) (halloc : allocIdx p.used = some n) :
    (∃ p2 : Pool α, Udp.bind f p sz base a bindRes = some (.error .UnsupportedProto, p2) ∧
      (∀ i : Nat, p2.used[i]? = p.used[i]?) ∧ p2.data = p.data) ∧
    (∃ p2 : Pool α, Tcp.connect f p sz base a connRes = some (.error .UnsupportedProto, p2) ∧
      (∀ i : Nat, p2.used[i]? = p.used[i]?) ∧ p2.data = p.data) := by
  obtain ⟨hflag, -⟩ := (allocIdx_eq_some_iff p.used n).mp halloc
  have hlt : n < p.used.length := getElem?_some_lt hflag
  have halloc' : p.alloc sz base = some (base + n * sz, ⟨p.used.set n true, p.data⟩) := by
    simp [Pool.alloc, halloc]
  have hlt1 : n < (⟨p.used.set n true, p.data⟩ : Pool α).used.length := by simpa using hlt
  have hfree := free_at_index α ⟨p.used.set n true, p.data⟩ sz base n hsz hlt1
  have hconv : to_emb_bind_socket f a = none := by
    simp [to_emb_bind_socket, hspec, hfam]
  have hconv2 : to_emb_socket f a = none := by
    simp [to_emb_socket, hfam]
  constructor
  · refine ⟨⟨(p.used.set n true).set n false, p.data⟩, ?_,
      set_true_then_false_getElem p.used n hflag, rfl⟩
    simp only [Udp.bind, halloc', hconv, hfree, Option.map_some']
  · refine ⟨⟨(p.used.set n true).set n false, p.data⟩, ?_,
      set_true_then_false_getElem p.used n hflag, rfl⟩
    simp only [Tcp.connect, halloc', hconv2, hfree, Option.map_some']

/-- Witness for C7: a one-slot pool, no protocol compiled in, address
`v4 7` port 80. -/
theorem unsupported_family_error_releases_slot_witness :
    (∃ p2 : Pool Nat, Udp.bind ⟨false, false⟩ (⟨[false], [0]⟩ : Pool Nat) 1 0 ⟨.v4 7, 80⟩
        (fun _ => .ok ()) = some (.error .UnsupportedProto, p2) ∧
      (∀ i : Nat, p2.used[i]? = (⟨[false], [0]⟩ : Pool Nat).used[i]?) ∧
      p2.data = (⟨[false], [0]⟩ : Pool Nat).data) ∧
    (∃ p2 : Pool Nat, Tcp.connect ⟨false, false⟩ (⟨[false], [0]⟩ : Pool Nat) 1 0 ⟨.v4 7, 80⟩
        (fun _ => .ok ()) = some (.error .UnsupportedProto, p2) ∧
      (∀ i : Nat, p2.used[i]? = (⟨[false], [0]⟩ : Pool Nat).used[i]?) ∧
      p2.data = (⟨[false], [0]⟩ : Pool Nat).data) :=
  unsupported_family_error_releases_slot Nat ⟨false, false⟩ ⟨[false], [0]⟩ 1 0
    ⟨.v4 7, 80⟩ (fun _ => .ok ()) (fun _ => .ok ()) (by decide) (by decide) (by decide)
    0 (by decide)

/-- Claim C8: `Dns::get_host_by_name` returns the (converted) first address
of the resolver's result list, or the `Failed` resolution error when the list
is empty; `Dns::get_host_by_address` (reverse lookup) is `todo!()` and never
returns a successful result for any input. -/
theorem dns_first_address_or_failed
    (query : DnsQueryType → Except DnsEngineError (List IpAddress))
    (addrType : AddrType) :
    (∀ a rest, query (queryTypeOf addrType) = .ok (a :: rest) →
      Dns.get_host_by_name query addrType = .ok a.toIpAddr) ∧
    (query (queryTypeOf addrType) = .ok [] →
      Dns.get_host_by_name query addrType = .error ⟨.Failed⟩) ∧
    (∀ addr result, Dns.get_host_by_address addr result = none) := by
  refine ⟨?_, ?_, ?_⟩
  · intro a rest h
    simp [Dns.get_host_by_name, h]
  · intro h
    simp [Dns.get_host_by_name, h]
  · intro addr result
    rfl

/-- Witness for C8: a resolver answering a single IPv6 address. -/
theorem dns_first_address_or_failed_witness :
    Dns.get_host_by_name (fun _ => .ok [.v6 5]) .ipv6 = .ok (IpAddress.v6 5).toIpAddr :=
  (dns_first_address_or_failed (fun _ => .ok [.v6 5]) .ipv6).1 (.v6 5) [] rfl

/-- Claim C10: a socket address with the unspecified (wildcard) IP is never
rejected by the bind-address conversion, regardless of which address families
are compiled in: it becomes a listen endpoint with no address (listen on
any), and `Udp::bind` on it can never fail with `UnsupportedProto`. -/
theorem unspecified_bind_never_unsupported
    (α : Type) (f : Features) (s : SocketAddr) (hs : s.ip.is_unspecified = true) :
    to_emb_bind_socket f s = some ⟨none, s.port⟩ ∧
    (∀ (p : Pool α) (sz base : Nat) (bindRes : IpListenEndpoint → Except Nat Unit)
      (r : Except UdpError Unit × Pool α),
      Udp.bind f p sz base s bindRes = some r → r.1 ≠ .error .UnsupportedProto) := by
  have hconv : to_emb_bind_socket f s = some ⟨none, s.port⟩ := by
    simp [to_emb_bind_socket, hs]
  refine ⟨hconv, ?_⟩
  intro p sz base bindRes r hbind
  simp only [Udp.bind] at hbind
  cases halloc : p.alloc sz base with
  | none =>
    rw [halloc] at hbind
    obtain rfl : (Except.error UdpError.NoBuffers, p) = r := Option.some.inj hbind
    simp
  | some tp =>
    obtain ⟨tok, p1⟩ := tp
    rw [halloc, hconv] at hbind
    simp only at hbind
    cases hb : bindRes ⟨none, s.port⟩ with
    | error e =>
      rw [hb] at hbind
      obtain ⟨p2, -, hp2⟩ := Option.map_eq_some'.mp hbind
      rw [← hp2]
      simp
    | ok u =>
      rw [hb] at hbind
      obtain rfl : (Except.ok (), p1) = r := Option.some.inj hbind
      simp

/-- Witness for C10 with both protocol features off and the wildcard IPv4
address. -/
theorem unspecified_bind_never_unsupported_witness :
    to_emb_bind_socket ⟨false, false⟩ ⟨.v4 0, 9⟩ = some ⟨none, 9⟩ ∧
    (∀ (p : Pool Nat) (sz base : Nat) (bindRes : IpListenEndpoint → Except Nat Unit)
      (r : Except UdpError Unit × Pool Nat),
      Udp.bind ⟨false, false⟩ p sz base ⟨.v4 0, 9⟩ bindRes = some r →
        r.1 ≠ .error .UnsupportedProto) :=
  unspecified_bind_never_unsupported Nat ⟨false, false⟩ ⟨.v4 0, 9⟩ (by decide)
